import Mathlib

/-
Verification development for the StrikePackageGPT command execution and
network-discovery engine.

Shallow embedding conventions:
- Python strings are modelled as `List Char`; a missing dict key read through
  `dict.get(k, "")` is modelled as the empty list.
- Python regular-expression matching (the `re.search` calls of the source) is
  embedded by small special-purpose matchers.  The blocked-pattern scan of
  `validate_command` uses a generic atom matcher (`matchAtoms`/`searchFrom`)
  covering exactly the constructs appearing in BLOCKED_PATTERNS: literal
  characters (matched case-insensitively, re.IGNORECASE), and the whitespace
  class with + or *.  In every one of those patterns a whitespace repetition is
  followed by a non-whitespace literal, so greedy (maximal-munch) consumption of
  whitespace coincides with the backtracking semantics of `re`; the matcher
  consumes whitespace greedily and is structurally recursive.
- Case folding is ASCII (codes 65-90 map to 97-122), matching the behaviour of
  re.IGNORECASE and str.lower() on the ASCII command/product strings involved.
- The whitespace class models the characters space, \t, \n, \r, \v, \f of
  Python's `\s` and `str.split()` / `str.strip()`.
-/

/-- ASCII case folding used to model `re.IGNORECASE` and Python `str.lower()`. -/
def lowerChar (c : Char) : Char :=
  if 65 ≤ c.toNat ∧ c.toNat ≤ 90 then Char.ofNat (c.toNat + 32) else c

/-- Python whitespace class `\s` (also the split set of `str.split()`). -/
def isPySpace (c : Char) : Bool :=
  c.toNat == 32 || c.toNat == 9 || c.toNat == 10 || c.toNat == 13 ||
    c.toNat == 11 || c.toNat == 12

/-- Lowercasing of a whole string, Python `str.lower()` (ASCII fragment). -/
def lowerStr (l : List Char) : List Char := l.map lowerChar

/-- Python `str.strip()`: drop whitespace from both ends. -/
def pyStrip (l : List Char) : List Char :=
  ((l.dropWhile isPySpace).reverse.dropWhile isPySpace).reverse

/-- Helper of `pySplit`: accumulate the current (reversed) token. -/
def pySplitAux : List Char → List Char → List (List Char)
  | [], cur => if cur = [] then [] else [cur.reverse]
  | c :: t, cur =>
    if isPySpace c then
      if cur = [] then pySplitAux t [] else cur.reverse :: pySplitAux t []
    else pySplitAux t (c :: cur)

/-- Python `str.split()` with no separator: split on whitespace runs, no empty
tokens. -/
def pySplit (l : List Char) : List (List Char) := pySplitAux l []

/-- Python `str.split(sep)` for a one-character separator: keeps empty pieces,
always returns at least one piece. -/
def pySplitOn (sep : Char) : List Char → List (List Char)
  | [] => [[]]
  | c :: t =>
    if c = sep then [] :: pySplitOn sep t
    else
      match pySplitOn sep t with
      | [] => [[c]]
      | p :: ps => (c :: p) :: ps

/-- Python `parts[0].split("/")[-1]`: last component after splitting on `/`. -/
def baseOf (w : List Char) : List Char := (pySplitOn '/' w).getLastD []

/-- Atoms of the blocked-pattern regular expressions: a literal character
(matched case-insensitively) and the whitespace class with + or *. -/
inductive Atom where
  | lit (c : Char)
  | wsPlus
  | wsStar
deriving DecidableEq, Repr

/-- Matching a pattern (list of atoms) against a prefix of the input.  For the
blocked patterns, whitespace repetitions are always followed by non-whitespace
literals, so greedy consumption is equivalent to the backtracking semantics of
Python `re`. -/
def matchAtoms : List Atom → List Char → Bool
  | [], _ => true
  | .lit c :: rest, l =>
    match l with
    | [] => false
    | x :: xs => lowerChar x == c && matchAtoms rest xs
  | .wsPlus :: rest, l =>
    match l with
    | [] => false
    | x :: xs => isPySpace x && matchAtoms rest (xs.dropWhile isPySpace)
  | .wsStar :: rest, l => matchAtoms rest (l.dropWhile isPySpace)

/-- Attempt a match at every start position, left to right: `re.search`. -/
def searchFrom (ats : List Atom) : List Char → Bool
  | [] => matchAtoms ats []
  | x :: xs => matchAtoms ats (x :: xs) || searchFrom ats xs

/-- Embedding of `re.search(pattern, command, re.IGNORECASE)` returning whether
a match exists anywhere in the string. -/
def reSearch (ats : List Atom) (l : List Char) : Bool := searchFrom ats l

/-- Blocked pattern `rm\s+-rf\s+/`. -/
def patRmRf : List Atom :=
  [.lit 'r', .lit 'm', .wsPlus, .lit '-', .lit 'r', .lit 'f', .wsPlus, .lit '/']

/-- Blocked pattern `mkfs`. -/
def patMkfs : List Atom := [.lit 'm', .lit 'k', .lit 'f', .lit 's']

/-- Blocked pattern `dd\s+if=`. -/
def patDdIf : List Atom := [.lit 'd', .lit 'd', .wsPlus, .lit 'i', .lit 'f', .lit '=']

/-- Blocked pattern `>\s*/dev/`. -/
def patDevWrite : List Atom :=
  [.lit '>', .wsStar, .lit '/', .lit 'd', .lit 'e', .lit 'v', .lit '/']

/-- Blocked pattern `chmod\s+777\s+/`. -/
def patChmod : List Atom :=
  [.lit 'c', .lit 'h', .lit 'm', .lit 'o', .lit 'd', .wsPlus,
   .lit '7', .lit '7', .lit '7', .wsPlus, .lit '/']

/-- Blocked pattern `shutdown`. -/
def patShutdown : List Atom :=
  [.lit 's', .lit 'h', .lit 'u', .lit 't', .lit 'd', .lit 'o', .lit 'w', .lit 'n']

/-- Blocked pattern `reboot`. -/
def patReboot : List Atom :=
  [.lit 'r', .lit 'e', .lit 'b', .lit 'o', .lit 'o', .lit 't']

/-- Blocked pattern `halt`. -/
def patHalt : List Atom := [.lit 'h', .lit 'a', .lit 'l', .lit 't']

/-- Blocked pattern `kill\s+-9\s+-1`. -/
def patKillAll : List Atom :=
  [.lit 'k', .lit 'i', .lit 'l', .lit 'l', .wsPlus, .lit '-', .lit '9',
   .wsPlus, .lit '-', .lit '1']

/-- The BLOCKED_PATTERNS list of kali-executor, in source order. -/
def BLOCKED_PATTERNS : List (List Atom) :=
  [patRmRf, patMkfs, patDdIf, patDevWrite, patChmod,
   patShutdown, patReboot, patHalt, patKillAll]

/-- The ALLOWED_COMMANDS whitelist of kali-executor (a Python set literal;
modelled as a list, membership coincides).  Entries in source order, with the
duplicated literals of the source kept. -/
def ALLOWED_COMMANDS : List (List Char) :=
  ["nmap".data, "masscan".data, "amass".data, "theharvester".data,
   "whatweb".data, "dnsrecon".data, "fierce".data,
   "dig".data, "nslookup".data, "host".data, "whois".data, "recon-ng".data,
   "maltego".data, "dmitry".data, "dnsenum".data,
   "enum4linux".data, "nbtscan".data, "onesixtyone".data, "smbclient".data,
   "snmp-check".data, "wafw00f".data,
   "nikto".data, "gobuster".data, "dirb".data, "sqlmap".data, "wpscan".data,
   "curl".data, "wget".data, "burpsuite".data,
   "zaproxy".data, "zap-cli".data, "wfuzz".data, "ffuf".data, "dirbuster".data,
   "cadaver".data, "davtest".data,
   "skipfish".data, "uniscan".data, "whatweb".data, "wapiti".data,
   "commix".data, "joomscan".data, "droopescan".data,
   "aircrack-ng".data, "airodump-ng".data, "aireplay-ng".data,
   "airmon-ng".data, "airbase-ng".data,
   "wifite".data, "reaver".data, "bully".data, "kismet".data,
   "fern-wifi-cracker".data, "wash".data, "cowpatty".data,
   "mdk3".data, "mdk4".data, "pixiewps".data, "wifiphisher".data,
   "eaphammer".data, "hostapd-wpe".data,
   "hydra".data, "medusa".data, "john".data, "hashcat".data, "ncrack".data,
   "patator".data, "ophcrack".data,
   "crunch".data, "cewl".data, "rsmangler".data, "hashid".data,
   "hash-identifier".data,
   "ping".data, "traceroute".data, "netcat".data, "nc".data, "tcpdump".data,
   "wireshark".data, "tshark".data,
   "ettercap".data, "bettercap".data, "responder".data, "arpspoof".data,
   "dnsspoof".data, "macchanger".data,
   "hping3".data, "arping".data, "fping".data, "masscan-web".data,
   "unicornscan".data,
   "searchsploit".data, "msfconsole".data, "msfvenom".data, "exploit".data,
   "armitage".data,
   "beef-xss".data, "set".data, "setoolkit".data, "backdoor-factory".data,
   "shellnoob".data,
   "commix".data, "routersploit".data, "linux-exploit-suggester".data,
   "mimikatz".data, "powersploit".data, "empire".data, "covenant".data,
   "crackmapexec".data, "cme".data,
   "impacket-smbserver".data, "impacket-psexec".data, "evil-winrm".data,
   "bloodhound".data,
   "sharphound".data, "powershell".data, "pwsh".data,
   "autopsy".data, "volatility".data, "sleuthkit".data, "foremost".data,
   "binwalk".data, "bulk-extractor".data,
   "scalpel".data, "dc3dd".data, "guymager".data, "chkrootkit".data,
   "rkhunter".data,
   "ghidra".data, "radare2".data, "r2".data, "gdb".data, "objdump".data,
   "strings".data, "ltrace".data, "strace".data,
   "hexdump".data, "xxd".data, "file".data, "readelf".data, "checksec".data,
   "pwntools".data,
   "dsniff".data, "tcpflow".data, "tcpreplay".data, "tcpick".data,
   "ngrep".data, "p0f".data, "ssldump".data,
   "ls".data, "cat".data, "head".data, "tail".data, "grep".data, "find".data,
   "pwd".data, "whoami".data, "id".data,
   "uname".data, "hostname".data, "ip".data, "ifconfig".data, "netstat".data,
   "ss".data, "route".data,
   "exiftool".data, "pdfid".data, "pdf-parser".data, "peepdf".data,
   "oletools".data, "olevba".data,
   "openvpn".data, "ssh".data, "sshuttle".data, "proxychains".data,
   "tor".data, "socat".data,
   "openssl".data, "gpg".data, "steghide".data, "outguess".data,
   "covert".data, "stegosuite".data,
   "yersinia".data, "responder".data, "chisel".data, "ligolo".data,
   "sliver".data,
   "python".data, "python3".data, "python2".data]

/-- Reason component of the validation result, one constructor per f-string of
the source (the interpolated datum is carried as a payload). -/
inductive Reason where
  | emptyCommand
  | blockedPattern (p : List Atom)
  | notAllowed (base : List Char)
  | ok
deriving DecidableEq, Repr

/-- Embedding of `validate_command` (kali-executor, lines 85-103): split the
command, fail closed on empty input, scan BLOCKED_PATTERNS on the full command
string first, then look the path-stripped base executable up in
ALLOWED_COMMANDS. -/
def validate_command (command : List Char) : Bool × Reason :=
  match pySplit (pyStrip command) with
  | [] => (false, Reason.emptyCommand)
  | w :: _ =>
    match BLOCKED_PATTERNS.find? (fun p => reSearch p command) with
    | some p => (false, Reason.blockedPattern p)
    | none =>
      if baseOf w ∈ ALLOWED_COMMANDS then (true, Reason.ok)
      else (false, Reason.notAllowed (baseOf w))

example : validate_command ("nmap -sV 10.0.0.1".data) = (true, Reason.ok) := by decide
example : (validate_command ("rm -rf /".data)).1 = false := by decide
example : validate_command ("shutdown now".data) = (false, Reason.blockedPattern patShutdown) := by
  decide
example : (validate_command ("foobar x".data)) = (false, Reason.notAllowed ("foobar".data)) := by
  decide
example : (validate_command ("/usr/bin/nmap x".data)).1 = true := by decide
example : (validate_command ("   ".data)) = (false, Reason.emptyCommand) := by decide
example : (validate_command ("nmap SHUTDOWN".data)) = (false, Reason.blockedPattern patShutdown) := by
  decide

/-- Auxiliary: Char.ofNatAux keeps the code point. -/
theorem toNat_ofNatAux (n : Nat) (h : n.isValidChar) : (Char.ofNatAux n h).toNat = n := rfl

/-- Auxiliary: Char.ofNat keeps code points below the surrogate range. -/
theorem toNat_ofNat_valid (n : Nat) (h : n < 55296) : (Char.ofNat n).toNat = n := by
  unfold Char.ofNat
  split
  · exact toNat_ofNatAux _ _
  · rename_i hv
    exact absurd (Or.inl h) hv

/-- Code point of the ASCII lowering. -/
theorem toNat_lowerChar (c : Char) :
    (lowerChar c).toNat = if 65 ≤ c.toNat ∧ c.toNat ≤ 90 then c.toNat + 32 else c.toNat := by
  unfold lowerChar
  split
  · rename_i h
    rw [toNat_ofNat_valid _ (by omega)]
  · rfl

/-- ASCII lowering neither creates nor destroys whitespace. -/
theorem isPySpace_lower (c : Char) : isPySpace (lowerChar c) = isPySpace c := by
  unfold isPySpace
  rw [toNat_lowerChar]
  split
  · rename_i h
    have h2 : ∀ n : Nat, 65 ≤ n →
        ((n == 32 || n == 9 || n == 10 || n == 13 || n == 11 || n == 12) = false) := by
      intro n hn
      simp only [Bool.or_eq_false_iff, beq_eq_false_iff_ne, ne_eq]
      omega
    rw [h2 _ (by omega), h2 _ (by omega)]
  · rfl

/-- Lowering commutes with dropping leading whitespace. -/
theorem lowerStr_dropWhile (l : List Char) :
    lowerStr (l.dropWhile isPySpace) = (lowerStr l).dropWhile isPySpace := by
  induction l with
  | nil => rfl
  | cons x xs ih =>
    simp only [lowerStr, List.map_cons, List.dropWhile_cons, isPySpace_lower]
    split
    · exact ih
    · rfl

/-- Pattern matching only depends on the string modulo ASCII case. -/
theorem matchAtoms_lower (ats : List Atom) :
    ∀ l l' : List Char, lowerStr l = lowerStr l' → matchAtoms ats l = matchAtoms ats l' := by
  induction ats with
  | nil => intro l l' _; rfl
  | cons a rest ih =>
    intro l l' h
    cases a with
    | lit c =>
      cases l with
      | nil => cases l' with
        | nil => rfl
        | cons y ys => simp [lowerStr] at h
      | cons x xs =>
        cases l' with
        | nil => simp [lowerStr] at h
        | cons y ys =>
          simp only [lowerStr, List.map_cons, List.cons.injEq] at h
          simp only [matchAtoms, h.1, ih xs ys h.2]
    | wsPlus =>
      cases l with
      | nil => cases l' with
        | nil => rfl
        | cons y ys => simp [lowerStr] at h
      | cons x xs =>
        cases l' with
        | nil => simp [lowerStr] at h
        | cons y ys =>
          simp only [lowerStr, List.map_cons, List.cons.injEq] at h
          have hx : isPySpace x = isPySpace y := by
            rw [← isPySpace_lower x, ← isPySpace_lower y, h.1]
          have ht : lowerStr (xs.dropWhile isPySpace) = lowerStr (ys.dropWhile isPySpace) := by
            rw [lowerStr_dropWhile, lowerStr_dropWhile]
            simp only [lowerStr]
            rw [h.2]
          simp only [matchAtoms, hx, ih _ _ ht]
    | wsStar =>
      have ht : lowerStr (l.dropWhile isPySpace) = lowerStr (l'.dropWhile isPySpace) := by
        rw [lowerStr_dropWhile, lowerStr_dropWhile, h]
      simp only [matchAtoms, ih _ _ ht]

/-- Search only depends on the string modulo ASCII case. -/
theorem searchFrom_lower (ats : List Atom) :
    ∀ l l' : List Char, lowerStr l = lowerStr l' → searchFrom ats l = searchFrom ats l' := by
  intro l
  induction l with
  | nil =>
    intro l' h
    cases l' with
    | nil => rfl
    | cons y ys => simp [lowerStr] at h
  | cons x xs ih =>
    intro l' h
    cases l' with
    | nil => simp [lowerStr] at h
    | cons y ys =>
      simp only [searchFrom, matchAtoms_lower _ _ _ h, ih ys (by
        simp only [lowerStr, List.map_cons, List.cons.injEq] at h
        exact h.2)]

/-- reSearch only depends on the string modulo ASCII case. -/
theorem reSearch_lower (ats : List Atom) (l l' : List Char)
    (h : lowerStr l = lowerStr l') : reSearch ats l = reSearch ats l' :=
  searchFrom_lower ats l l' h

/-- Every blocked pattern starts with a non-whitespace literal. -/
theorem blocked_head (p : List Atom) (hp : p ∈ BLOCKED_PATTERNS) :
    ∃ c rest, p = .lit c :: rest ∧ isPySpace c = false := by
  simp only [BLOCKED_PATTERNS, List.mem_cons, List.not_mem_nil, or_false] at hp
  rcases hp with rfl | rfl | rfl | rfl | rfl | rfl | rfl | rfl | rfl
  · exact ⟨'r', _, rfl, by decide⟩
  · exact ⟨'m', _, rfl, by decide⟩
  · exact ⟨'d', _, rfl, by decide⟩
  · exact ⟨'>', _, rfl, by decide⟩
  · exact ⟨'c', _, rfl, by decide⟩
  · exact ⟨'s', _, rfl, by decide⟩
  · exact ⟨'r', _, rfl, by decide⟩
  · exact ⟨'h', _, rfl, by decide⟩
  · exact ⟨'k', _, rfl, by decide⟩

/-- A successful search for a pattern starting with a non-whitespace literal
exhibits a non-whitespace character of the input. -/
theorem searchFrom_lit_nonspace (c : Char) (rest : List Atom)
    (hc : isPySpace c = false) :
    ∀ l : List Char, searchFrom (.lit c :: rest) l = true →
      ∃ x ∈ l, isPySpace x = false := by
  intro l
  induction l with
  | nil => intro h; simp [searchFrom, matchAtoms] at h
  | cons x xs ih =>
    intro h
    simp only [searchFrom, Bool.or_eq_true] at h
    rcases h with h | h
    · simp only [matchAtoms, Bool.and_eq_true, beq_iff_eq] at h
      refine ⟨x, List.mem_cons_self x xs, ?_⟩
      rw [← isPySpace_lower x, h.1, hc]
    · obtain ⟨y, hy, hys⟩ := ih h
      exact ⟨y, List.mem_cons_of_mem x hy, hys⟩

/-- find? succeeds when some member satisfies the predicate. -/
theorem find_of_mem {α : Type} (pred : α → Bool) :
    ∀ (l : List α) (p : α), p ∈ l → pred p = true →
      ∃ q, l.find? pred = some q ∧ pred q = true ∧ q ∈ l := by
  intro l
  induction l with
  | nil => intro p hp _; cases hp
  | cons a t ih =>
    intro p hp hpred
    by_cases ha : pred a = true
    · exact ⟨a, by rw [List.find?_cons_of_pos _ ha], ha, List.mem_cons_self a t⟩
    · have hpa : p ∈ t := by
        rcases List.mem_cons.mp hp with rfl | h
        · exact absurd hpred ha
        · exact h
      obtain ⟨q, hq, hq2, hq3⟩ := ih p hpa hpred
      refine ⟨q, ?_, hq2, List.mem_cons_of_mem a hq3⟩
      rw [List.find?_cons_of_neg _ (by simpa using ha), hq]

/-- Membership survives dropWhile for elements falsifying the predicate. -/
theorem mem_dropWhile_of_not {α : Type} (p : α → Bool) :
    ∀ (l : List α) (x : α), x ∈ l → p x = false → x ∈ l.dropWhile p := by
  intro l
  induction l with
  | nil => intro x hx _; cases hx
  | cons a t ih =>
    intro x hx hpx
    rw [List.dropWhile_cons]
    split
    · rename_i ha
      rcases List.mem_cons.mp hx with rfl | h
      · rw [hpx] at ha; cases ha
      · exact ih x h hpx
    · exact hx

/-- A non-whitespace character survives Python strip(). -/
theorem mem_pyStrip (l : List Char) (x : Char) (hx : x ∈ l)
    (hpx : isPySpace x = false) : x ∈ pyStrip l := by
  unfold pyStrip
  rw [List.mem_reverse]
  apply mem_dropWhile_of_not _ _ _ _ hpx
  rw [List.mem_reverse]
  exact mem_dropWhile_of_not _ _ _ hx hpx

/-- If the whitespace split is empty, everything was whitespace. -/
theorem pySplitAux_eq_nil :
    ∀ (l : List Char) (cur : List Char), pySplitAux l cur = [] →
      cur = [] ∧ ∀ x ∈ l, isPySpace x = true := by
  intro l
  induction l with
  | nil =>
    intro cur h
    simp only [pySplitAux] at h
    split at h
    · rename_i hc; exact ⟨hc, by intro x hx; cases hx⟩
    · cases h
  | cons a t ih =>
    intro cur h
    simp only [pySplitAux] at h
    split at h
    · rename_i ha
      split at h
      · obtain ⟨_, ht⟩ := ih [] h
        refine ⟨by assumption, ?_⟩
        intro x hx
        rcases List.mem_cons.mp hx with rfl | hxt
        · exact ha
        · exact ht x hxt
      · cases h
    · rename_i ha
      obtain ⟨hc, _⟩ := ih _ h
      cases hc

/-- A string containing a non-whitespace character splits into at least one
token. -/
theorem pySplit_ne_nil (l : List Char) (x : Char) (hx : x ∈ l)
    (hpx : isPySpace x = false) : pySplit l ≠ [] := by
  intro h
  obtain ⟨_, hall⟩ := pySplitAux_eq_nil l [] h
  rw [hall x hx] at hpx
  cases hpx

/-- C1: a command matching any blocked pattern is denied with the blocked
pattern reported as the reason (the first matching pattern of the list), no
matter whether the base executable is whitelisted: the blocked-pattern scan
precedes the whitelist lookup. -/
theorem blocked_pattern_denies (cmd : List Char) (p : List Atom)
    (hp : p ∈ BLOCKED_PATTERNS) (hm : reSearch p cmd = true) :
    ∃ q ∈ BLOCKED_PATTERNS, reSearch q cmd = true ∧
      validate_command cmd = (false, Reason.blockedPattern q) := by
  obtain ⟨c, rest, rfl, hc⟩ := blocked_head p hp
  obtain ⟨x, hxl, hxs⟩ := searchFrom_lit_nonspace c rest hc cmd hm
  obtain ⟨q, hfind, hqpred, hqmem⟩ :=
    find_of_mem (fun r => reSearch r cmd) BLOCKED_PATTERNS _ hp hm
  have hsplit : pySplit (pyStrip cmd) ≠ [] :=
    pySplit_ne_nil (pyStrip cmd) x (mem_pyStrip cmd x hxl hxs) hxs
  refine ⟨q, hqmem, hqpred, ?_⟩
  unfold validate_command
  cases hps : pySplit (pyStrip cmd) with
  | nil => exact absurd hps hsplit
  | cons w ws => rw [hfind]

/-- Witness for C1: `nmap shutdown` has a whitelisted base executable yet
matches the `shutdown` blocked pattern and is denied with that reason. -/
theorem blocked_pattern_denies_witness :
    baseOf ("nmap".data) ∈ ALLOWED_COMMANDS ∧
      ∃ q ∈ BLOCKED_PATTERNS, reSearch q ("nmap shutdown".data) = true ∧
        validate_command ("nmap shutdown".data) = (false, Reason.blockedPattern q) :=
  ⟨by decide,
   blocked_pattern_denies ("nmap shutdown".data) patShutdown (by decide) (by decide)⟩

/-- C2: a command whose path-stripped first whitespace token is not in
ALLOWED_COMMANDS is denied, whatever the remaining arguments are. -/
theorem not_whitelisted_denies (cmd : List Char) (w : List Char)
    (ws : List (List Char)) (hsplit : pySplit (pyStrip cmd) = w :: ws)
    (hbase : baseOf w ∉ ALLOWED_COMMANDS) :
    (validate_command cmd).1 = false := by
  unfold validate_command
  rw [hsplit]
  cases hfind : BLOCKED_PATTERNS.find? (fun p => reSearch p cmd) with
  | none => simp [hbase]
  | some p => rfl

/-- Witness for C2: `foobar --version` is denied. -/
theorem not_whitelisted_denies_witness :
    (validate_command ("foobar --version".data)).1 = false :=
  not_whitelisted_denies ("foobar --version".data) ("foobar".data)
    [("--version".data)] (by decide) (by decide)

/-- C10: blocked-pattern matching is case-insensitive: if any letter-case
variant of the command (any string with the same ASCII lowering) matches a
blocked pattern, the command itself is denied. -/
theorem blocked_pattern_case_insensitive (cmd cmd' : List Char) (p : List Atom)
    (hp : p ∈ BLOCKED_PATTERNS) (hlow : lowerStr cmd = lowerStr cmd')
    (hm : reSearch p cmd' = true) :
    (validate_command cmd).1 = false := by
  have hcmd : reSearch p cmd = true := by
    rw [reSearch_lower p cmd cmd' hlow]
    exact hm
  obtain ⟨q, _, _, hv⟩ := blocked_pattern_denies cmd p hp hcmd
  rw [hv]

/-- Witness for C10: `nmap SHUTDOWN` is denied because its lowercase variant
matches the `shutdown` pattern, although the configured pattern is lowercase. -/
theorem blocked_pattern_case_insensitive_witness :
    (validate_command ("nmap SHUTDOWN".data)).1 = false :=
  blocked_pattern_case_insensitive ("nmap SHUTDOWN".data)
    ("nmap shutdown".data) patShutdown (by decide) (by decide) (by decide)

/-
Execution Engine (kali-executor /execute and /execute/async).

The synchronous handler `execute_command` (lines 560-623) runs the command via
`exec_run` with NO timeout mechanism at all (the request's `timeout` field is
never used on this path) and, when `exec_run` returns, always builds a
CommandResult with status "completed" and the returned exit code.

The background handler `_run_command_background` (lines 658-686) wraps the
command as `cd wd && timeout {timeout} {command}`; when `exec_run` returns it
stores status "completed" with the exit code, and on a raised exception it
stores status "failed".  The GNU `timeout` utility makes a run that exceeds its
budget exit with code 124, which lands in the same "completed" status.
-/

/-- Status strings written by the executor service. -/
inductive ExecStatus where
  | running
  | completed
  | failed
deriving DecidableEq, Repr

/-- The registry record fields written when a background command finishes.  The
input is the outcome of `exec_run`: either an exception message or the triple
(exit code, stdout, stderr). -/
structure BgRecord where
  status : ExecStatus
  exit_code : Option Int
  stdout : List Char
  stderr : List Char
  errmsg : Option (List Char)
deriving DecidableEq, Repr

/-- Embedding of the update performed by `_run_command_background` once
`exec_run` returns (lines 667-686): success stores status "completed" with the
exit code and output; an exception stores status "failed" with the message. -/
def run_command_background_update
    (res : Except (List Char) (Int × List Char × List Char)) : BgRecord :=
  match res with
  | .ok (code, out, err) =>
    { status := .completed, exit_code := some code, stdout := out,
      stderr := err, errmsg := none }
  | .error e =>
    { status := .failed, exit_code := none, stdout := [], stderr := [],
      errmsg := some e }

/-- Exit code produced by the `timeout {t}` wrapper prefixed to the background
command: a process that would run `dur` seconds and exit with `code` is killed
at `t` seconds and exits 124 when `dur > t` (GNU coreutils timeout), modelling
the runtime the wrapped command executes in. -/
def timeoutWrapperExit (dur t : Nat) (code : Int) : Int :=
  if dur > t then 124 else code

/-- Result assembled by the synchronous `execute_command` handler when
`exec_run` returns (lines 608-618): the status is the constant "completed",
and the request's timeout field is not consulted anywhere on this path. -/
def execute_command_result (command : List Char) (timeoutParam : Nat)
    (code : Int) (out err : List Char) : ExecStatus × Option Int × List Char × List Char :=
  (.completed, some code, out, err)

/-- C3 counterexample: a background run that exceeds its timeout (600s of work
against a 300s budget) yields the same status "completed" as a run that merely
finished with exit code 1, and the timeout shows up only as exit code 124 —
there is no distinguished timeout status. -/
theorem timeout_status_not_distinguished :
    (run_command_background_update
        (.ok (timeoutWrapperExit 600 300 0, ("partial output".data), []))).status =
      (run_command_background_update (.ok (1, [], ("oops".data)))).status ∧
    timeoutWrapperExit 600 300 0 = 124 := by
  constructor
  · rfl
  · rfl

/-- C3 amended: a run exceeding its timeout on the background path still yields
a registry record (with the partial output captured and exit code 124 from the
`timeout` wrapper), but its status is the ordinary "completed" — identical to
the status of a run finishing with any non-zero exit code; and the synchronous
path builds a result independent of the request's timeout value, with constant
status "completed". -/
theorem timeout_still_returns_result (dur t : Nat) (code failCode : Int)
    (out err out2 err2 : List Char) :
    (run_command_background_update
        (.ok (timeoutWrapperExit dur t code, out, err))).status = .completed ∧
    (run_command_background_update
        (.ok (timeoutWrapperExit dur t code, out, err))).stdout = out ∧
    (run_command_background_update
        (.ok (timeoutWrapperExit dur t code, out, err))).exit_code =
      some (timeoutWrapperExit dur t code) ∧
    (run_command_background_update
        (.ok (timeoutWrapperExit dur t code, out, err))).status =
      (run_command_background_update (.ok (failCode, out2, err2))).status ∧
    (∀ cmd t2, execute_command_result cmd t code out err =
      execute_command_result cmd t2 code out err) := by
  exact ⟨rfl, rfl, rfl, rfl, fun _ _ => rfl⟩

/-
Host Directory (dashboard, discover_hosts, lines 1251-1309).

State is the list of host records (the current project's 'hosts' list when a
project is active, the process-global network_hosts list otherwise).  Incoming
records are modelled after the setdefault calls, so every field is present
(missing keys read as "").  When no project is active, `hosts_list` IS
`network_hosts` (the same Python list object), so the new-host branch
  hosts_list.append(host); if not project: network_hosts.append(host)
appends the record twice; the value model below duplicates the record
accordingly (the two Python entries alias one dict; all claims settled here
evaluate identically under either reading).
-/

/-- Port record as produced by the nmap parsers and consumed by the merge
(fields missing from a given producer's dict read as "" through .get). -/
structure Port where
  port : Nat
  protocol : List Char
  state : List Char
  service : List Char
  product : List Char
  version : List Char
deriving DecidableEq, Repr

/-- Host record with the fields read and written by discover_hosts. -/
structure Host where
  ip : List Char
  hostname : List Char
  mac : List Char
  vendor : List Char
  os_type : List Char
  os_details : List Char
  ports : List Port
  source : List Char
deriving DecidableEq, Repr

/-- Key used for the port union: `(p["port"], p.get("protocol", "tcp"))`. -/
def portKey (p : Port) : Nat × List Char := (p.port, p.protocol)

/-- Port union of discover_hosts lines 1279-1283: the key set of the existing
ports is computed once, and every incoming port whose key is not in that set is
appended. -/
def mergePorts (existing incoming : List Port) : List Port :=
  existing ++ incoming.filter (fun p => !((existing.map portKey).contains (portKey p)))

/-- Field fill of line 1287: `if host.get(field) and not existing.get(field)`. -/
def fillField (ex inc : List Char) : List Char :=
  if inc ≠ [] ∧ ex = [] then inc else ex

/-- In-place update of an existing entry by an incoming record with the same
IP (lines 1278-1288): ports are unioned and each of the five descriptive
fields is filled only when currently empty; ip and source are untouched. -/
def mergeHost (existing incoming : Host) : Host :=
  { existing with
    ports := mergePorts existing.ports incoming.ports
    hostname := fillField existing.hostname incoming.hostname
    mac := fillField existing.mac incoming.mac
    vendor := fillField existing.vendor incoming.vendor
    os_type := fillField existing.os_type incoming.os_type
    os_details := fillField existing.os_details incoming.os_details }

/-- Replace the first entry whose ip equals the incoming record's ip by the
merged entry (the Python code mutates the dict found by
`next((h for h in hosts_list if h["ip"] == host["ip"]), None)`). -/
def replaceFirst : List Host → Host → List Host
  | [], _ => []
  | h :: t, inc =>
    if h.ip = inc.ip then mergeHost h inc :: t else h :: replaceFirst t inc

/-- One loop iteration of discover_hosts for one incoming record:
skip records without ip; merge into the first entry with the same ip when one
exists; otherwise append (twice when no project is active, because hosts_list
aliases network_hosts and both appends hit the same list). -/
def discoverStep (projectActive : Bool) (state : List Host) (h : Host) : List Host :=
  if h.ip = [] then state
  else if (state.find? (fun e => e.ip == h.ip)).isSome then replaceFirst state h
  else if projectActive then state ++ [h] else state ++ [h, h]

/-- Embedding of the discover_hosts merge loop over the incoming host list. -/
def discover_hosts (projectActive : Bool) (state : List Host) (incoming : List Host) :
    List Host :=
  incoming.foldl (discoverStep projectActive) state

/-- A sample discovered host. -/
def sampleHost : Host :=
  { ip := "192.168.1.10".data, hostname := "web01".data, mac := [],
    vendor := [], os_type := "Linux".data, os_details := [],
    ports := [⟨80, "tcp".data, "open".data, "http".data, [], []⟩],
    source := "terminal".data }

/-- C4 (bug evaluation): with no active project, merging a single new host into
the empty directory yields TWO entries carrying the same IP, because the
new-host branch appends the record to the aliased hosts_list/network_hosts list
twice; the spec's IP-uniqueness invariant is violated by the code. -/
theorem discover_hosts_duplicates_ip :
    discover_hosts false [] [sampleHost] = [sampleHost, sampleHost] ∧
    (discover_hosts false [] [sampleHost]).map Host.ip =
      ["192.168.1.10".data, "192.168.1.10".data] := by
  constructor
  · rfl
  · rfl

/-- C5: merging an incoming record into an existing entry with the same IP
fills each of the five descriptive fields only when the existing value is
empty and the incoming one is non-empty, and otherwise leaves the existing
value unchanged — in particular a non-empty existing field is never changed. -/
theorem merge_non_destructive (ex inc : Host) (hip : ex.ip = inc.ip) :
    (mergeHost ex inc).hostname =
        (if inc.hostname ≠ [] ∧ ex.hostname = [] then inc.hostname else ex.hostname) ∧
      (mergeHost ex inc).mac = (if inc.mac ≠ [] ∧ ex.mac = [] then inc.mac else ex.mac) ∧
      (mergeHost ex inc).vendor =
        (if inc.vendor ≠ [] ∧ ex.vendor = [] then inc.vendor else ex.vendor) ∧
      (mergeHost ex inc).os_type =
        (if inc.os_type ≠ [] ∧ ex.os_type = [] then inc.os_type else ex.os_type) ∧
      (mergeHost ex inc).os_details =
        (if inc.os_details ≠ [] ∧ ex.os_details = [] then inc.os_details
         else ex.os_details) ∧
      (mergeHost ex inc).ip = ex.ip := by
  exact ⟨rfl, rfl, rfl, rfl, rfl, rfl⟩

/-- Witness for C5: merging a record with empty hostname into an entry with a
non-empty hostname leaves the hostname unchanged. -/
theorem merge_non_destructive_witness :
    (mergeHost sampleHost
        { ip := "192.168.1.10".data, hostname := [], mac := "AA:BB".data,
          vendor := [], os_type := "Windows".data, os_details := [],
          ports := [], source := "terminal".data }).hostname = "web01".data ∧
    (mergeHost sampleHost
        { ip := "192.168.1.10".data, hostname := [], mac := "AA:BB".data,
          vendor := [], os_type := "Windows".data, os_details := [],
          ports := [], source := "terminal".data }).os_type = "Linux".data := by
  have h := merge_non_destructive sampleHost
    { ip := "192.168.1.10".data, hostname := [], mac := "AA:BB".data,
      vendor := [], os_type := "Windows".data, os_details := [],
      ports := [], source := "terminal".data } (by decide)
  exact ⟨by rw [h.1]; decide, by rw [h.2.2.2.1]; decide⟩

/-- A port key present among the existing keys stays present after a union. -/
theorem portKey_mem_mergePorts_left (ep x : List Port) (k : Nat × List Char)
    (h : k ∈ ep.map portKey) : k ∈ (mergePorts ep x).map portKey := by
  unfold mergePorts
  rw [List.map_append]
  exact List.mem_append_left _ h

/-- Every incoming port's key is present after the union. -/
theorem portKey_mem_mergePorts (ep hp : List Port) (p : Port) (hmem : p ∈ hp) :
    portKey p ∈ (mergePorts ep hp).map portKey := by
  by_cases hk : portKey p ∈ ep.map portKey
  · exact portKey_mem_mergePorts_left ep hp _ hk
  · unfold mergePorts
    rw [List.map_append]
    apply List.mem_append_right
    apply List.mem_map_of_mem
    rw [List.mem_filter]
    refine ⟨hmem, ?_⟩
    simp only [Bool.not_eq_true', ← Bool.not_eq_true, List.contains, List.elem_iff]
    simpa using hk

/-- Bridge between Bool contains and membership for port keys. -/
theorem contains_portKey_iff (l : List (Nat × List Char)) (k : Nat × List Char) :
    l.contains k = true ↔ k ∈ l := by
  simp [List.contains, List.elem_iff]

/-- The union is a no-op when every incoming key is already present. -/
theorem mergePorts_eq_self_of (ep hp : List Port)
    (h : ∀ p ∈ hp, portKey p ∈ ep.map portKey) : mergePorts ep hp = ep := by
  unfold mergePorts
  have hnil : hp.filter (fun p => !((ep.map portKey).contains (portKey p))) = [] := by
    rw [List.filter_eq_nil_iff]
    intro p hp2 hpred
    rw [Bool.not_eq_true'] at hpred
    rw [(contains_portKey_iff _ _).mpr (h p hp2)] at hpred
    cases hpred
  rw [hnil, List.append_nil]

/-- Unioning a port list with itself is a no-op. -/
theorem mergePorts_self (hp : List Port) : mergePorts hp hp = hp :=
  mergePorts_eq_self_of hp hp (fun p h => List.mem_map_of_mem portKey h)

/-- Conversely, a no-op union means every incoming key was present. -/
theorem of_mergePorts_eq_self (ep hp : List Port) (h : mergePorts ep hp = ep) :
    ∀ p ∈ hp, portKey p ∈ ep.map portKey := by
  unfold mergePorts at h
  have h0 : ep ++ hp.filter (fun p => !((ep.map portKey).contains (portKey p))) = ep ++ [] := by
    rw [List.append_nil]; exact h
  have h1 := List.append_cancel_left h0
  rw [List.filter_eq_nil_iff] at h1
  intro p hp2
  have h2 := h1 p hp2
  rw [Bool.not_eq_true'] at h2
  cases hb : (ep.map portKey).contains (portKey p) with
  | true => exact (contains_portKey_iff _ _).mp hb
  | false => exact absurd hb h2

/-- Filling a field with its own value changes nothing. -/
theorem fillField_self (a : List Char) : fillField a a = a := by
  unfold fillField
  split
  · rename_i hc
    exact absurd hc.2 hc.1
  · rfl

/-- Filling twice from the same incoming value equals filling once. -/
theorem fillField_idem (a b : List Char) : fillField (fillField a b) b = fillField a b := by
  by_cases hc : b ≠ [] ∧ a = []
  · have h1 : fillField a b = b := by rw [fillField, if_pos hc]
    rw [h1, fillField, if_neg (fun hb : b ≠ [] ∧ b = [] => hb.1 hb.2)]
  · have h1 : fillField a b = a := by rw [fillField, if_neg hc]
    rw [h1, fillField, if_neg hc]

/-- A fill that was already a no-op stays a no-op after another fill. -/
theorem fillField_absorb (a b c : List Char) (h : fillField a b = a) :
    fillField (fillField a c) b = fillField a c := by
  by_cases hc : c ≠ [] ∧ a = []
  · have h1 : fillField a c = c := by rw [fillField, if_pos hc]
    rw [h1, fillField, if_neg (fun hb : b ≠ [] ∧ c = [] => hc.1 hb.2)]
  · have h1 : fillField a c = a := by rw [fillField, if_neg hc]
    rw [h1]
    exact h

/-- Componentwise characterisation of a no-op merge. -/
theorem mergeHost_eq_self_iff (e h : Host) :
    mergeHost e h = e ↔
      mergePorts e.ports h.ports = e.ports ∧
        fillField e.hostname h.hostname = e.hostname ∧
        fillField e.mac h.mac = e.mac ∧
        fillField e.vendor h.vendor = e.vendor ∧
        fillField e.os_type h.os_type = e.os_type ∧
        fillField e.os_details h.os_details = e.os_details := by
  cases e
  simp only [mergeHost, Host.mk.injEq, true_and, and_true]
  constructor
  · rintro ⟨h1, h2, h3, h4, h5, h6⟩
    exact ⟨h6, h1, h2, h3, h4, h5⟩
  · rintro ⟨h6, h1, h2, h3, h4, h5⟩
    exact ⟨h1, h2, h3, h4, h5, h6⟩

/-- Merging a record into itself is a no-op. -/
theorem mergeHost_self (h : Host) : mergeHost h h = h := by
  rw [mergeHost_eq_self_iff]
  exact ⟨mergePorts_self h.ports, fillField_self _, fillField_self _, fillField_self _,
    fillField_self _, fillField_self _⟩

/-- Merging the same record twice equals merging it once. -/
theorem mergeHost_merge_self (e h : Host) :
    mergeHost (mergeHost e h) h = mergeHost e h := by
  rw [mergeHost_eq_self_iff]
  refine ⟨?_, fillField_idem _ _, fillField_idem _ _, fillField_idem _ _,
    fillField_idem _ _, fillField_idem _ _⟩
  exact mergePorts_eq_self_of _ _ (fun p hp => portKey_mem_mergePorts _ _ p hp)

/-- A record already absorbed by an entry stays absorbed after the entry takes
a further merge. -/
theorem mergeHost_absorb (e h h2 : Host) (habs : mergeHost e h = e) :
    mergeHost (mergeHost e h2) h = mergeHost e h2 := by
  rw [mergeHost_eq_self_iff] at habs ⊢
  obtain ⟨hp, h1, h2', h3, h4, h5⟩ := habs
  refine ⟨?_, fillField_absorb _ _ _ h1, fillField_absorb _ _ _ h2',
    fillField_absorb _ _ _ h3, fillField_absorb _ _ _ h4, fillField_absorb _ _ _ h5⟩
  apply mergePorts_eq_self_of
  intro p hmem
  exact portKey_mem_mergePorts_left _ _ _ (of_mergePorts_eq_self _ _ hp p hmem)

/-- The merge update does not change an entry's ip. -/
theorem mergeHost_ip (e h : Host) : (mergeHost e h).ip = e.ip := rfl

/-- A record is absorbed by a directory state when the first entry with its ip
exists and merging into it changes nothing. -/
def subsumed (h : Host) (s : List Host) : Prop :=
  h.ip ≠ [] → ∃ e, s.find? (fun x => x.ip == h.ip) = some e ∧ mergeHost e h = e

/-- Replacing by an already-absorbing entry changes nothing. -/
theorem replaceFirst_eq_self (h : Host) :
    ∀ (s : List Host) (e : Host), s.find? (fun x => x.ip == h.ip) = some e →
      mergeHost e h = e → replaceFirst s h = s := by
  intro s
  induction s with
  | nil => intro e he _; cases he
  | cons a t ih =>
    intro e he hm
    by_cases ha : a.ip = h.ip
    · rw [List.find?_cons_of_pos _ (by simpa using ha)] at he
      injection he with he
      subst he
      rw [replaceFirst, if_pos ha, hm]
    · rw [List.find?_cons_of_neg _ (by simpa using ha)] at he
      rw [replaceFirst, if_neg ha, ih e he hm]

/-- find? after replaceFirst: the found entry is merged exactly when the two
ips agree, and is untouched otherwise. -/
theorem find?_replaceFirst (h h2 : Host) :
    ∀ (s : List Host) (e : Host), s.find? (fun x => x.ip == h.ip) = some e →
      (replaceFirst s h2).find? (fun x => x.ip == h.ip) =
        some (if h.ip = h2.ip then mergeHost e h2 else e) := by
  intro s
  induction s with
  | nil => intro e he; cases he
  | cons a t ih =>
    intro e he
    by_cases ha2 : a.ip = h2.ip
    · rw [replaceFirst, if_pos ha2]
      by_cases ha : a.ip = h.ip
      · rw [List.find?_cons_of_pos _ (by simpa using ha)] at he
        injection he with he
        subst he
        rw [List.find?_cons_of_pos _ (by simp [mergeHost_ip, ha]),
          if_pos (ha.symm.trans ha2)]
      · rw [List.find?_cons_of_neg _ (by simpa using ha)] at he
        rw [List.find?_cons_of_neg _
            (by simp only [mergeHost_ip, beq_iff_eq]; exact ha), he,
          if_neg (fun hh => ha (ha2.trans hh.symm))]
    · rw [replaceFirst, if_neg ha2]
      by_cases ha : a.ip = h.ip
      · rw [List.find?_cons_of_pos _ (by simpa using ha)] at he
        injection he with he
        subst he
        rw [List.find?_cons_of_pos _ (by simpa using ha)]
        rw [if_neg (fun hh => ha2 (ha.trans hh))]
      · rw [List.find?_cons_of_neg _ (by simpa using ha)] at he
        rw [List.find?_cons_of_neg _ (by simpa using ha)]
        exact ih e he

/-- find? is stable under appending when it already succeeds. -/
theorem find?_append_some {α : Type} (p : α → Bool) :
    ∀ (l l' : List α) (a : α), l.find? p = some a → (l ++ l').find? p = some a := by
  intro l
  induction l with
  | nil => intro l' a h; cases h
  | cons x t ih =>
    intro l' a h
    by_cases hx : p x = true
    · rw [List.find?_cons_of_pos _ hx] at h
      rw [List.cons_append, List.find?_cons_of_pos _ hx]
      exact h
    · rw [List.find?_cons_of_neg _ (by simpa using hx)] at h
      rw [List.cons_append, List.find?_cons_of_neg _ (by simpa using hx)]
      exact ih l' a h

/-- find? over an append where the left part fails. -/
theorem find?_append_none {α : Type} (p : α → Bool) :
    ∀ (l l' : List α), l.find? p = none → (l ++ l').find? p = l'.find? p := by
  intro l
  induction l with
  | nil => intro l' _; rfl
  | cons x t ih =>
    intro l' h
    by_cases hx : p x = true
    · rw [List.find?_cons_of_pos _ hx] at h; cases h
    · rw [List.find?_cons_of_neg _ (by simpa using hx)] at h
      rw [List.cons_append, List.find?_cons_of_neg _ (by simpa using hx)]
      exact ih l' h

/-- Step equation when an entry with the record's ip exists. -/
theorem discoverStep_found (pa : Bool) (s : List Host) (h e : Host) (hip : h.ip ≠ [])
    (hfind : s.find? (fun x => x.ip == h.ip) = some e) :
    discoverStep pa s h = replaceFirst s h := by
  unfold discoverStep
  rw [if_neg hip, hfind]
  simp

/-- Step equation when no entry with the record's ip exists. -/
theorem discoverStep_new (pa : Bool) (s : List Host) (h : Host) (hip : h.ip ≠ [])
    (hfind : s.find? (fun x => x.ip == h.ip) = none) :
    discoverStep pa s h = (if pa then s ++ [h] else s ++ [h, h]) := by
  unfold discoverStep
  rw [if_neg hip, hfind]
  simp

/-- Processing a record makes it absorbed by the resulting state. -/
theorem subsumed_after_step (pa : Bool) (s : List Host) (h : Host) :
    subsumed h (discoverStep pa s h) := by
  intro hip
  cases hfind : s.find? (fun x => x.ip == h.ip) with
  | some e =>
    rw [discoverStep_found pa s h e hip hfind]
    refine ⟨mergeHost e h, ?_, mergeHost_merge_self e h⟩
    have h1 := find?_replaceFirst h h s e hfind
    rw [if_pos rfl] at h1
    exact h1
  | none =>
    rw [discoverStep_new pa s h hip hfind]
    have hh : (fun x => x.ip == h.ip) h = true := by simp
    cases pa with
    | true =>
      rw [if_pos rfl]
      refine ⟨h, ?_, mergeHost_self h⟩
      rw [find?_append_none _ s [h] hfind]
      simp [List.find?]
    | false =>
      rw [if_neg (by simp)]
      refine ⟨h, ?_, mergeHost_self h⟩
      rw [find?_append_none _ s [h, h] hfind]
      simp [List.find?]

/-- Absorption is preserved by processing further records. -/
theorem subsumed_step (pa : Bool) (s : List Host) (h h2 : Host)
    (hs : subsumed h s) : subsumed h (discoverStep pa s h2) := by
  intro hip
  obtain ⟨e, hfind, hm⟩ := hs hip
  by_cases hip2 : h2.ip = []
  · unfold discoverStep
    rw [if_pos hip2]
    exact ⟨e, hfind, hm⟩
  · cases hfind2 : s.find? (fun x => x.ip == h2.ip) with
    | some e2 =>
      rw [discoverStep_found pa s h2 e2 hip2 hfind2]
      refine ⟨if h.ip = h2.ip then mergeHost e h2 else e,
        find?_replaceFirst h h2 s e hfind, ?_⟩
      split
      · exact mergeHost_absorb e h h2 hm
      · exact hm
    | none =>
      rw [discoverStep_new pa s h2 hip2 hfind2]
      cases pa with
      | true =>
        rw [if_pos rfl]
        exact ⟨e, find?_append_some _ s [h2] e hfind, hm⟩
      | false =>
        rw [if_neg (by simp)]
        exact ⟨e, find?_append_some _ s [h2, h2] e hfind, hm⟩

/-- Absorption is preserved by a whole merge pass. -/
theorem subsumed_fold (pa : Bool) (h : Host) :
    ∀ (l : List Host) (s : List Host), subsumed h s → subsumed h (discover_hosts pa s l) := by
  intro l
  induction l with
  | nil => intro s hs; exact hs
  | cons x t ih =>
    intro s hs
    exact ih (discoverStep pa s x) (subsumed_step pa s h x hs)

/-- After one pass, every processed record is absorbed by the final state. -/
theorem subsumed_of_mem (pa : Bool) :
    ∀ (l : List Host) (s : List Host) (h : Host), h ∈ l →
      subsumed h (discover_hosts pa s l) := by
  intro l
  induction l with
  | nil => intro s h hh; cases hh
  | cons x t ih =>
    intro s h hh
    rcases List.mem_cons.mp hh with rfl | hh
    · exact subsumed_fold pa h t (discoverStep pa s h) (subsumed_after_step pa s h)
    · exact ih (discoverStep pa s x) h hh

/-- Processing an absorbed record is a no-op on the state. -/
theorem step_of_subsumed (pa : Bool) (s : List Host) (h : Host)
    (hs : subsumed h s) : discoverStep pa s h = s := by
  by_cases hip : h.ip = []
  · unfold discoverStep
    rw [if_pos hip]
  · obtain ⟨e, hfind, hm⟩ := hs hip
    rw [discoverStep_found pa s h e hip hfind]
    exact replaceFirst_eq_self h s e hfind hm

/-- A pass over records all absorbed by the state is a no-op. -/
theorem fold_of_subsumed (pa : Bool) :
    ∀ (l : List Host) (s : List Host), (∀ h ∈ l, subsumed h s) →
      discover_hosts pa s l = s := by
  intro l
  induction l with
  | nil => intro s _; rfl
  | cons x t ih =>
    intro s hs
    have hx := step_of_subsumed pa s x (hs x (List.mem_cons_self x t))
    unfold discover_hosts
    rw [List.foldl_cons, hx]
    exact ih s (fun h hh => hs h (List.mem_cons_of_mem x hh))

/-- C6: merging the same host list twice in a row produces exactly the state
produced by merging it once, from any starting directory state, with or
without an active project. -/
theorem discover_hosts_idempotent (pa : Bool) (s : List Host) (l : List Host) :
    discover_hosts pa (discover_hosts pa s l) l = discover_hosts pa s l :=
  fold_of_subsumed pa l (discover_hosts pa s l)
    (fun h hh => subsumed_of_mem pa l s h hh)

/-
Output Normalizer / nmap parsers (kali-executor, lines 110-385).

The text parser's five re.search patterns are embedded by deterministic
special-purpose matchers.  For each pattern the backtracking search of `re` is
equivalent to maximal-munch parsing, because every repeated class in these
patterns is followed either by a character outside the class or by the end of
the pattern; the two places where giving back characters matters (a `\s*`
followed by `(.+)` or `([^;,]+)` at end of line) are handled explicitly.
Scanning over all start positions reproduces re.search.  Character classes are
the ASCII fragments of \d, \w, \s and [0-9A-Fa-f:].
-/

/-- ASCII digit class `\d`. -/
def isDigitC (c : Char) : Bool := decide (48 ≤ c.toNat ∧ c.toNat ≤ 57)

/-- ASCII word class `\w` = [a-zA-Z0-9_]. -/
def isWordC (c : Char) : Bool :=
  isDigitC c || decide (65 ≤ c.toNat ∧ c.toNat ≤ 90) ||
    decide (97 ≤ c.toNat ∧ c.toNat ≤ 122) || c = '_'

/-- Class [0-9A-Fa-f:] of the MAC-address pattern. -/
def isHexColon (c : Char) : Bool :=
  isDigitC c || decide (65 ≤ c.toNat ∧ c.toNat ≤ 70) ||
    decide (97 ≤ c.toNat ∧ c.toNat ≤ 102) || c = ':'

/-- Python `int()` on a digit string. -/
def digitsToNat (l : List Char) : Nat :=
  l.foldl (fun n c => n * 10 + (c.toNat - 48)) 0

/-- Python substring test `needle in hay`. -/
def strContains : List Char → List Char → Bool
  | [], needle => needle.isEmpty
  | c :: t, needle => needle.isPrefixOf (c :: t) || strContains t needle

/-- Consume an exact literal prefix, returning the remainder. -/
def afterLit : List Char → List Char → Option (List Char)
  | [], l => some l
  | _ :: _, [] => none
  | a :: as, b :: bs => if a = b then afterLit as bs else none

/-- Try a matcher at every start position, left to right (re.search). -/
def scanSuffixes {α : Type} (f : List Char → Option α) : List Char → Option α
  | [] => f []
  | c :: t =>
    match f (c :: t) with
    | some r => some r
    | none => scanSuffixes f t

/-- Parse `(\d+\.\d+\.\d+\.\d+)` at the current position, returning the matched
text. -/
def parseIpv4 (l : List Char) : Option (List Char) :=
  let d1 := l.takeWhile isDigitC
  if d1 = [] then none
  else
    match l.drop d1.length with
    | '.' :: r1 =>
      let d2 := r1.takeWhile isDigitC
      if d2 = [] then none
      else
        match r1.drop d2.length with
        | '.' :: r2 =>
          let d3 := r2.takeWhile isDigitC
          if d3 = [] then none
          else
            match r2.drop d3.length with
            | '.' :: r3 =>
              let d4 := r3.takeWhile isDigitC
              if d4 = [] then none
              else some (d1 ++ '.' :: d2 ++ '.' :: d3 ++ '.' :: d4)
            | _ => none
        | _ => none
    | _ => none

/-- One start position of the host-report pattern
`Nmap scan report for (?:(\S+) \()?(\d+\.\d+\.\d+\.\d+)`; the greedy optional
group is tried first.  Returns (hostname group or "", ip). -/
def tryHostReport (l : List Char) : Option (List Char × List Char) :=
  match afterLit ("Nmap scan report for ".data) l with
  | none => none
  | some rest =>
    let w := rest.takeWhile (fun c => !isPySpace c)
    let attempt1 : Option (List Char × List Char) :=
      if w = [] then none
      else
        match afterLit (" (".data) (rest.drop w.length) with
        | none => none
        | some r2 =>
          match parseIpv4 r2 with
          | some ip => some (w, ip)
          | none => none
    match attempt1 with
    | some r => some r
    | none =>
      match parseIpv4 rest with
      | some ip => some ([], ip)
      | none => none

/-- re.search for the host-report pattern over a whole line. -/
def matchHostReport (l : List Char) : Option (List Char × List Char) :=
  scanSuffixes tryHostReport l

/-- One start position of `MAC Address: ([0-9A-Fa-f:]+)(?: \(([^)]+)\))?`.
Returns (mac, vendor group or ""). -/
def tryMacLine (l : List Char) : Option (List Char × List Char) :=
  match afterLit ("MAC Address: ".data) l with
  | none => none
  | some rest =>
    let hx := rest.takeWhile isHexColon
    if hx = [] then none
    else
      let r2 := rest.drop hx.length
      let vendor : Option (List Char) :=
        match afterLit (" (".data) r2 with
        | none => none
        | some r3 =>
          let v := r3.takeWhile (fun c => c ≠ ')')
          if v = [] then none
          else
            match r3.drop v.length with
            | ')' :: _ => some v
            | _ => none
      some (hx, vendor.getD [])

/-- re.search for the MAC pattern over a whole line. -/
def matchMacLine (l : List Char) : Option (List Char × List Char) :=
  scanSuffixes tryMacLine l

/-- One start position of
`(\d+)/(tcp|udp)\s+(\w+)\s+(\S+)(?:\s+(.*))?`.
Returns (port, protocol, state, service, product group or ""). -/
def tryPortLine (l : List Char) :
    Option (Nat × List Char × List Char × List Char × List Char) :=
  let d := l.takeWhile isDigitC
  if d = [] then none
  else
    match l.drop d.length with
    | '/' :: r1 =>
      let proto : Option (List Char × List Char) :=
        match afterLit ("tcp".data) r1 with
        | some r2 => some ("tcp".data, r2)
        | none =>
          match afterLit ("udp".data) r1 with
          | some r2 => some ("udp".data, r2)
          | none => none
      match proto with
      | none => none
      | some (pr, r2) =>
        let sp1 := r2.takeWhile isPySpace
        if sp1 = [] then none
        else
          let r3 := r2.drop sp1.length
          let w := r3.takeWhile isWordC
          if w = [] then none
          else
            let r4 := r3.drop w.length
            let sp2 := r4.takeWhile isPySpace
            if sp2 = [] then none
            else
              let r5 := r4.drop sp2.length
              let t := r5.takeWhile (fun c => !isPySpace c)
              if t = [] then none
              else
                let r6 := r5.drop t.length
                let sp3 := r6.takeWhile isPySpace
                let product := if sp3 = [] then ([] : List Char) else r6.drop sp3.length
                some (digitsToNat d, pr, w, t, product)
    | _ => none

/-- re.search for the port pattern over a whole line. -/
def matchPortLine (l : List Char) :
    Option (Nat × List Char × List Char × List Char × List Char) :=
  scanSuffixes tryPortLine l

/-- Consume the prefix alternation `(?:OS details?|Running):` (the optional `s`
is tried greedily), returning the remainder after the colon. -/
def tryOsPrefix (l : List Char) : Option (List Char) :=
  match afterLit ("OS detail".data) l with
  | some r1 =>
    match r1 with
    | 's' :: ':' :: r2 => some r2
    | ':' :: r2 => some r2
    | _ => none
  | none =>
    match afterLit ("Running:".data) l with
    | some r2 => some r2
    | none => none

/-- Match `\s*(.+)` at end of pattern: the greedy whitespace run gives back its
last character when nothing else remains for the mandatory group. -/
def tailAnyMatch (rest : List Char) : Option (List Char) :=
  let w := rest.takeWhile isPySpace
  let r := rest.drop w.length
  if r ≠ [] then some r
  else if w ≠ [] then some [w.getLastD ' ']
  else none

/-- One start position of `(?:OS details?|Running):\s*(.+)`. -/
def tryOsLine (l : List Char) : Option (List Char) :=
  match tryOsPrefix l with
  | none => none
  | some rest => tailAnyMatch rest

/-- re.search for the OS-details pattern over a whole line. -/
def matchOsLine (l : List Char) : Option (List Char) :=
  scanSuffixes tryOsLine l

/-- Match `\s*([^;,]+)` at end of pattern (same give-back rule as above). -/
def tailOsMatch (rest : List Char) : Option (List Char) :=
  let w := rest.takeWhile isPySpace
  let r := rest.drop w.length
  let run := r.takeWhile (fun c => !(c = ';' || c = ','))
  if run ≠ [] then some run
  else if w ≠ [] then some [w.getLastD ' ']
  else none

/-- Rightmost occurrence of `OS:` whose tail matches (the greedy `.*` of the
pattern reaches the furthest viable occurrence first). -/
def findLastOs : List Char → Option (List Char)
  | [] => none
  | c :: t =>
    match findLastOs t with
    | some r => some r
    | none =>
      match afterLit ("OS:".data) (c :: t) with
      | none => none
      | some r2 => tailOsMatch r2

/-- One start position of `Service Info:.*OS:\s*([^;,]+)`. -/
def tryServiceInfo (l : List Char) : Option (List Char) :=
  match afterLit ("Service Info:".data) l with
  | none => none
  | some rest => findLastOs rest

/-- re.search for the Service Info pattern over a whole line. -/
def matchServiceInfoOs (l : List Char) : Option (List Char) :=
  scanSuffixes tryServiceInfo l

/-- One start position of
`Aggressive OS guesses:\s*([^(]+)\s*\((\d+)%\)`: the `[^(]+` group runs to the
first parenthesis and cannot cross it, making the parse deterministic.
Returns (name group, confidence). -/
def tryAggressive (l : List Char) : Option (List Char × Nat) :=
  match afterLit ("Aggressive OS guesses:".data) l with
  | none => none
  | some rest =>
    let w := rest.takeWhile isPySpace
    let r := rest.drop w.length
    let g1 := r.takeWhile (fun c => c ≠ '(')
    if g1 = [] then none
    else
      match r.drop g1.length with
      | '(' :: r2 =>
        let d := r2.takeWhile isDigitC
        if d = [] then none
        else
          match r2.drop d.length with
          | '%' :: ')' :: _ => some (g1, digitsToNat d)
          | _ => none
      | _ => none

/-- re.search for the aggressive-guess pattern over a whole line. -/
def matchAggressive (l : List Char) : Option (List Char × Nat) :=
  scanSuffixes tryAggressive l

/-- Embedding of `detect_os_type` (lines 119-149): keyword chain over the
lowercased OS string, first hit wins, empty result when nothing matches. -/
def detect_os_type (os_string : List Char) : List Char :=
  if os_string = [] then []
  else
    let l := lowerStr os_string
    if strContains l ("windows".data) then "Windows".data
    else if strContains l ("linux".data) || strContains l ("ubuntu".data) ||
        strContains l ("debian".data) || strContains l ("centos".data) ||
        strContains l ("red hat".data) then "Linux".data
    else if strContains l ("mac os".data) || strContains l ("darwin".data) ||
        strContains l ("apple".data) || strContains l ("ios".data) then "macOS".data
    else if strContains l ("cisco".data) then "Cisco Router".data
    else if strContains l ("juniper".data) then "Juniper Router".data
    else if strContains l ("fortinet".data) || strContains l ("fortigate".data) then
      "Fortinet".data
    else if strContains l ("vmware".data) || strContains l ("esxi".data) then
      "VMware Server".data
    else if strContains l ("freebsd".data) then "FreeBSD".data
    else if strContains l ("android".data) then "Android".data
    else if strContains l ("printer".data) || strContains l ("hp".data) then "Printer".data
    else if strContains l ("switch".data) then "Network Switch".data
    else if strContains l ("router".data) then "Router".data
    else []

/-- Embedding of `infer_os_from_ports` (lines 152-204): weighted score over
port numbers and lowercased product banners.  (The `services` set computed by
the source is never read and is omitted.) -/
def infer_os_from_ports (ports : List Port) : List Char :=
  let port_nums := ports.map Port.port
  let products := ports.map (fun p => lowerStr p.product)
  let linux_score : Nat :=
    (if port_nums.contains 22 then 3 else 0) +
    (if products.any
        (fun p => strContains p ("openssh".data) || strContains p ("linux".data))
      then 5 else 0) +
    (if products.any
        (fun p => strContains p ("apache".data) || strContains p ("nginx".data))
      then 2 else 0)
  let windows_score : Nat :=
    (if port_nums.contains 135 then 5 else 0) +
    (if port_nums.contains 3389 then 3 else 0) +
    (if port_nums.contains 5985 || port_nums.contains 5986 then 5 else 0) +
    (if products.any
        (fun p => strContains p ("microsoft".data) || strContains p ("windows".data))
      then 5 else 0) +
    (if port_nums.contains 445 then 1 else 0) +
    (if port_nums.contains 139 then 1 else 0)
  if linux_score > windows_score then "Linux".data
  else if windows_score > linux_score then "Windows".data
  else if port_nums.contains 161 || port_nums.contains 162 then "Network Device".data
  else if port_nums.contains 9100 || port_nums.contains 631 then "Printer".data
  else []

/-- Python `output.split('\n')`. -/
def splitLines (l : List Char) : List (List Char) := pySplitOn '\n' l

/-- Embedding of the inner `save_host_if_has_open_ports` of parse_nmap_text
(lines 318-324): append the current host only when it has an ip and at least
one open port, inferring the OS from ports first when still unknown. -/
def save_host_if_has_open_ports (hosts : List Host) (host : Option Host) : List Host :=
  match host with
  | none => hosts
  | some h =>
    if h.ip ≠ [] ∧ h.ports ≠ [] then
      hosts ++ [{ h with
        os_type := if h.os_type = [] then infer_os_from_ports h.ports else h.os_type }]
    else hosts

/-- MAC-line update of the current host (lines 346-349). -/
def applyMac (h : Host) (line : List Char) : Host :=
  match matchMacLine line with
  | some (m, v) => { h with mac := m, vendor := v }
  | none => h

/-- Port-line update (lines 352-361): only "open" ports are retained; the
stored dict has state "open" and no version key. -/
def applyPort (h : Host) (line : List Char) : Host :=
  match matchPortLine line with
  | some (pn, proto, st, sv, prod) =>
    if st = "open".data then
      { h with ports := h.ports ++ [⟨pn, proto, "open".data, sv, prod, []⟩] }
    else h
  | none => h

/-- OS-details / Running line update (lines 364-367). -/
def applyOsDetails (h : Host) (line : List Char) : Host :=
  match matchOsLine line with
  | some g1 => { h with os_details := g1, os_type := detect_os_type g1 }
  | none => h

/-- Service Info OS update (lines 370-372), only when os_type still empty. -/
def applyServiceInfo (h : Host) (line : List Char) : Host :=
  match matchServiceInfoOs line with
  | some g1 => if h.os_type = [] then { h with os_type := detect_os_type g1 } else h
  | none => h

/-- Aggressive-guess update (lines 375-380): only when os_details is empty and
the confidence is at least 85; the details are stripped, the type is derived
from the unstripped group. -/
def applyAggressive (h : Host) (line : List Char) : Host :=
  match matchAggressive line with
  | some (g1, conf) =>
    if h.os_details = [] then
      if conf ≥ 85 then
        { h with os_details := pyStrip g1, os_type := detect_os_type g1 }
      else h
    else h
  | none => h

/-- One line of the parse_nmap_text state machine (lines 326-380): a
host-report line flushes the current host (via save_host_if_has_open_ports)
and starts a new one; any other line updates the current host when one is
active. -/
def textStep (st : List Host × Option Host) (line : List Char) :
    List Host × Option Host :=
  match matchHostReport line with
  | some (hn, ip) =>
    (save_host_if_has_open_ports st.1 st.2,
     some { ip := ip, hostname := hn, os_type := [], os_details := [],
            ports := [], mac := [], vendor := [], source := [] })
  | none =>
    match st.2 with
    | none => st
    | some ch =>
      (st.1,
       some (applyAggressive
        (applyServiceInfo
          (applyOsDetails (applyPort (applyMac ch line) line) line) line) line))

/-- Embedding of `parse_nmap_text` (lines 309-385). -/
def parse_nmap_text (output : List Char) : List Host :=
  let st := (splitLines output).foldl textStep ([], none)
  save_host_if_has_open_ports st.1 st.2

/-
XML form (parse_nmap_xml, lines 230-306).  The ElementTree decoding of raw XML
into a tree is the work of the xml library; the embedding starts from the data
the function reads out of each <host> element: the status state, the address
elements (addrtype/addr/vendor attributes, missing attributes reading as ""),
the hostname name attributes, the osmatch name attributes and the port
elements.  A missing <status> element and a missing state attribute both fail
the `state == "up"` test and are folded into the same Option.
-/

/-- Data read from one <port> element: portid (int-converted), protocol,
state (none when the <state> child is missing) and the <service> child's
name/product/version attributes when present. -/
structure XPort where
  portid : Nat
  protocol : List Char
  state : Option (List Char)
  service : Option (List Char × List Char × List Char)
deriving DecidableEq, Repr

/-- Data read from one <address> element. -/
structure XAddress where
  addrtype : List Char
  addr : List Char
  vendor : List Char
deriving DecidableEq, Repr

/-- Data read from one <host> element. -/
structure XHost where
  status : Option (List Char)
  addresses : List XAddress
  hostnames : List (List Char)
  osmatches : List (List Char)
  ports : List XPort
deriving DecidableEq, Repr

/-- First ipv4 address of the host element (lines 252-254). -/
def xipOf (xh : XHost) : List Char :=
  match xh.addresses.find? (fun a => a.addrtype == ("ipv4".data)) with
  | some a => a.addr
  | none => []

/-- First mac address and vendor of the host element (lines 257-260). -/
def xmacOf (xh : XHost) : List Char × List Char :=
  match xh.addresses.find? (fun a => a.addrtype == ("mac".data)) with
  | some a => (a.addr, a.vendor)
  | none => ([], [])

/-- Port dict assembled from a <port> element (lines 275-287): service fields
default to "" when the <service> child is absent. -/
def xportToPort (xp : XPort) : Port :=
  match xp.service with
  | some (n, pr, v) => ⟨xp.portid, xp.protocol, xp.state.getD [], n, pr, v⟩
  | none => ⟨xp.portid, xp.protocol, xp.state.getD [], [], [], []⟩

/-- The ports kept for a host: exactly those in state "open" (line 289). -/
def xopenPorts (xh : XHost) : List Port :=
  (xh.ports.filter (fun p => p.state.getD [] == ("open".data))).map xportToPort

/-- OS type assigned to a host element: the keyword match on the first osmatch
name, falling back to port inference when that is empty and open ports exist
(lines 268-272 and 292-294). -/
def xosTypeOf (xh : XHost) : List Char :=
  if detect_os_type ((xh.osmatches.head?).getD []) = [] ∧ xopenPorts xh ≠ [] then
    infer_os_from_ports (xopenPorts xh)
  else detect_os_type ((xh.osmatches.head?).getD [])

/-- Processing of one <host> element by parse_nmap_xml (lines 236-301):
skip unless status is "up"; extract ip, mac/vendor, hostname, osmatch; keep
open ports; infer the OS from ports when still unknown; finally emit the host
only when it has an ip and (open ports or a mac). -/
def parse_host_elem (xh : XHost) : Option Host :=
  if xh.status ≠ some ("up".data) then none
  else if xipOf xh ≠ [] ∧ (xopenPorts xh ≠ [] ∨ (xmacOf xh).1 ≠ []) then
    some { ip := xipOf xh, hostname := (xh.hostnames.head?).getD [],
           mac := (xmacOf xh).1, vendor := (xmacOf xh).2,
           os_type := xosTypeOf xh,
           os_details := (xh.osmatches.head?).getD [],
           ports := xopenPorts xh, source := [] }
  else none

/-- Accumulator step of the parse_nmap_xml host loop. -/
def xmlStep (acc : List Host) (xh : XHost) : List Host :=
  match parse_host_elem xh with
  | some h => acc ++ [h]
  | none => acc

/-- Embedding of the parse_nmap_xml host loop. -/
def parse_nmap_xml (xhosts : List XHost) : List Host :=
  xhosts.foldl xmlStep []

example : matchHostReport ("Nmap scan report for web01 (10.0.0.5)".data) =
    some ("web01".data, "10.0.0.5".data) := by decide
example : matchHostReport ("Nmap scan report for 10.0.0.5".data) =
    some ([], "10.0.0.5".data) := by decide
example : matchHostReport ("Host is up (0.00042s latency).".data) = none := by decide
example : matchPortLine ("445/tcp open  microsoft-ds".data) =
    some (445, "tcp".data, "open".data, "microsoft-ds".data, []) := by decide
example : matchPortLine ("22/tcp open  ssh     OpenSSH 8.2p1".data) =
    some (22, "tcp".data, "open".data, "ssh".data, "OpenSSH 8.2p1".data) := by decide
example : matchPortLine ("80/tcp closed http".data) =
    some (80, "tcp".data, "closed".data, "http".data, []) := by decide
example : matchMacLine ("MAC Address: AA:BB:CC:DD:EE:FF (Acme Corp)".data) =
    some ("AA:BB:CC:DD:EE:FF".data, "Acme Corp".data) := by decide
example : matchOsLine ("OS details: Linux 4.15 - 5.6".data) =
    some ("Linux 4.15 - 5.6".data) := by decide
example : matchServiceInfoOs ("Service Info: OS: Linux; CPE: cpe:/o:linux".data) =
    some ("Linux".data) := by decide
example : matchAggressive ("Aggressive OS guesses: Linux 5.4 (98%)".data) =
    some ("Linux 5.4 ".data, 98) := by decide

/-- A sample text report: one host, MAC AA:BB:CC:DD:EE:FF, one open port 445
(service microsoft-ds, no product banner), no OS line. -/
def sampleReportSmb : List Char :=
  ("Nmap scan report for 10.0.0.5\nHost is up (0.00042s latency).\nPORT    STATE SERVICE      VERSION\n445/tcp open  microsoft-ds\nMAC Address: AA:BB:CC:DD:EE:FF (Acme Corp)".data)

/-- The same report with an additional open port 22 whose product is OpenSSH. -/
def sampleReportSmbSsh : List Char :=
  ("Nmap scan report for 10.0.0.5\nHost is up (0.00042s latency).\nPORT    STATE SERVICE      VERSION\n22/tcp open  ssh     OpenSSH 8.2p1\n445/tcp open  microsoft-ds\nMAC Address: AA:BB:CC:DD:EE:FF (Acme Corp)".data)

/-- C8: weighted OS scoring on the two example reports: with only port 445
(microsoft-ds, no Samba banner) the parsed host is classified Windows; adding
port 22 with an OpenSSH banner flips the classification to Linux, the strong
SSH signal outweighing the weak SMB signal.  The port-level scoring is checked
as well. -/
theorem weighted_os_scoring_examples :
    (parse_nmap_text sampleReportSmb).map Host.os_type = ["Windows".data] ∧
    (parse_nmap_text sampleReportSmb).map Host.mac = ["AA:BB:CC:DD:EE:FF".data] ∧
    (parse_nmap_text sampleReportSmbSsh).map Host.os_type = ["Linux".data] ∧
    infer_os_from_ports
      [⟨445, "tcp".data, "open".data, "microsoft-ds".data, [], []⟩] = "Windows".data ∧
    infer_os_from_ports
      [⟨22, "tcp".data, "open".data, "ssh".data, "OpenSSH 8.2p1".data, []⟩,
       ⟨445, "tcp".data, "open".data, "microsoft-ds".data, [], []⟩] = "Linux".data := by
  decide

/-- An open port 445 whose product banner explicitly names Samba. -/
def sambaPort : Port :=
  ⟨445, "tcp".data, "open".data, "microsoft-ds".data, "Samba smbd 4.6.2".data, []⟩

/-- C9 counterexample: a port list with a single open port 445 carrying an
explicit Samba product banner, and no Windows-exclusive signal, is classified
Windows, not Linux — the code has no Samba override. -/
theorem samba_banner_does_not_override :
    infer_os_from_ports [sambaPort] = "Windows".data ∧
    strContains (lowerStr sambaPort.product) ("samba".data) = true ∧
    sambaPort.port = 445 := by
  decide

/-- C9 amended: with an open port 445 and a Samba banner, no Windows-exclusive
signal (no port 135/3389/5985/5986, no Microsoft/Windows product) and also no
Linux-scoring signal (no port 22, no OpenSSH/Linux product, no Apache/nginx
product), inference yields Windows: the Samba banner has no effect on the
score and the SMB port's weak Windows weight decides. -/
theorem samba_without_linux_signals_is_windows (ports : List Port)
    (h445 : (ports.map Port.port).contains 445 = true)
    (hsamba : ∃ p ∈ ports, strContains (lowerStr p.product) ("samba".data) = true)
    (hno135 : (ports.map Port.port).contains 135 = false)
    (hno3389 : (ports.map Port.port).contains 3389 = false)
    (hno5985 : (ports.map Port.port).contains 5985 = false)
    (hno5986 : (ports.map Port.port).contains 5986 = false)
    (hnoMs : (ports.map (fun p => lowerStr p.product)).any
        (fun p => strContains p ("microsoft".data) || strContains p ("windows".data)) = false)
    (hno22 : (ports.map Port.port).contains 22 = false)
    (hnoLinuxProd : (ports.map (fun p => lowerStr p.product)).any
        (fun p => strContains p ("openssh".data) || strContains p ("linux".data)) = false)
    (hnoWebProd : (ports.map (fun p => lowerStr p.product)).any
        (fun p => strContains p ("apache".data) || strContains p ("nginx".data)) = false) :
    infer_os_from_ports ports = "Windows".data := by
  unfold infer_os_from_ports
  simp only [h445, hno135, hno3389, hno5985, hno5986, hnoMs, hno22, hnoLinuxProd,
    hnoWebProd]
  cases h139 : (ports.map Port.port).contains 139 with
  | true => simp
  | false => simp

/-- Witness for the amended C9 at the Samba-only port list. -/
theorem samba_without_linux_signals_is_windows_witness :
    infer_os_from_ports [sambaPort] = "Windows".data :=
  samba_without_linux_signals_is_windows [sambaPort] (by decide)
    ⟨sambaPort, by decide, by decide⟩ (by decide) (by decide) (by decide) (by decide)
    (by decide) (by decide) (by decide) (by decide)

/-- An emitted XML host has an ip and open ports or a mac. -/
theorem parse_host_elem_some (xh : XHost) (h : Host)
    (hp : parse_host_elem xh = some h) :
    h.ip ≠ [] ∧ (h.ports ≠ [] ∨ h.mac ≠ []) := by
  unfold parse_host_elem at hp
  split at hp
  · cases hp
  · split at hp
    · rename_i hc
      injection hp with hp
      subst hp
      exact hc
    · cases hp

/-- Emission condition for one host element: status "up", an ipv4 address,
and open ports or a mac address. -/
theorem parse_host_elem_isSome_iff (xh : XHost) :
    (parse_host_elem xh).isSome = true ↔
      (xh.status = some ("up".data) ∧ xipOf xh ≠ [] ∧
        (xopenPorts xh ≠ [] ∨ (xmacOf xh).1 ≠ [])) := by
  unfold parse_host_elem
  by_cases h1 : xh.status = some ("up".data)
  · rw [if_neg (not_not_intro h1)]
    by_cases h2 : xipOf xh ≠ [] ∧ (xopenPorts xh ≠ [] ∨ (xmacOf xh).1 ≠ [])
    · rw [if_pos h2]
      simp [h1, h2.1, h2.2]
    · rw [if_neg h2]
      simp only [Option.isSome_none, Bool.false_eq_true, false_iff]
      intro hc
      exact h2 ⟨hc.2.1, hc.2.2⟩
  · rw [if_pos h1]
    simp [h1]

/-- Membership in the XML fold comes from the accumulator or from an emitted
element. -/
theorem mem_parse_nmap_xml_aux :
    ∀ (xhosts : List XHost) (acc : List Host) (h : Host),
      h ∈ xhosts.foldl xmlStep acc →
      h ∈ acc ∨ ∃ xh ∈ xhosts, parse_host_elem xh = some h := by
  intro xhosts
  induction xhosts with
  | nil => intro acc h hh; exact Or.inl hh
  | cons x t ih =>
    intro acc h hh
    rw [List.foldl_cons] at hh
    rcases ih (xmlStep acc x) h hh with hacc | ⟨xh, hxh, hp⟩
    · cases hpx : parse_host_elem x with
      | some hx =>
        unfold xmlStep at hacc
        rw [hpx] at hacc
        rcases List.mem_append.mp hacc with hacc | hone
        · exact Or.inl hacc
        · rcases List.mem_singleton.mp hone with rfl
          exact Or.inr ⟨x, List.mem_cons_self x t, hpx⟩
      | none =>
        unfold xmlStep at hacc
        rw [hpx] at hacc
        exact Or.inl hacc
    · exact Or.inr ⟨xh, List.mem_cons_of_mem x hxh, hp⟩

/-- Invariant of the text parser's accumulated host list. -/
def goodHosts (hosts : List Host) : Prop := ∀ h ∈ hosts, h.ip ≠ [] ∧ h.ports ≠ []

/-- Flushing the current host preserves the invariant: the flush itself is
guarded by the ip/open-port test. -/
theorem save_preserves (hosts : List Host) (cur : Option Host)
    (hg : goodHosts hosts) : goodHosts (save_host_if_has_open_ports hosts cur) := by
  cases cur with
  | none => exact hg
  | some h =>
    simp only [save_host_if_has_open_ports]
    by_cases hc : h.ip ≠ [] ∧ h.ports ≠ []
    · rw [if_pos hc]
      intro x hx
      rcases List.mem_append.mp hx with hx | hx
      · exact hg x hx
      · rcases List.mem_singleton.mp hx with rfl
        exact ⟨hc.1, hc.2⟩
    · rw [if_neg hc]
      exact hg

/-- One parser step preserves the invariant. -/
theorem textStep_preserves (st : List Host × Option Host) (line : List Char)
    (hg : goodHosts st.1) : goodHosts (textStep st line).1 := by
  unfold textStep
  cases matchHostReport line with
  | some r => exact save_preserves st.1 st.2 hg
  | none =>
    cases st.2 with
    | none => exact hg
    | some ch => exact hg

/-- The whole line fold preserves the invariant. -/
theorem foldl_textStep_preserves :
    ∀ (lines : List (List Char)) (st : List Host × Option Host),
      goodHosts st.1 → goodHosts (lines.foldl textStep st).1 := by
  intro lines
  induction lines with
  | nil => intro st hg; exact hg
  | cons x t ih =>
    intro st hg
    exact ih (textStep st x) (textStep_preserves st x hg)

/-- Every host emitted by the text parser has an ip and at least one open
port; in particular a MAC address alone never suffices in text form. -/
theorem parse_nmap_text_only_open (output : List Char) (h : Host)
    (hm : h ∈ parse_nmap_text output) : h.ip ≠ [] ∧ h.ports ≠ [] := by
  have hg :
      goodHosts (save_host_if_has_open_ports
        (((splitLines output).foldl textStep ([], none)).1)
        (((splitLines output).foldl textStep ([], none)).2)) :=
    save_preserves _ _
      (foldl_textStep_preserves (splitLines output) ([], none)
        (fun x hx => absurd hx (List.not_mem_nil x)))
  exact hg h hm

/-- A text report whose only host answers with a MAC address but has no open
port: host-report line, up line, MAC line. -/
def macOnlyReport : List Char :=
  ("Nmap scan report for 10.0.0.9\nHost is up (0.0010s latency).\nMAC Address: 11:22:33:44:55:66 (RouterCo)".data)

/-- C7 counterexample: the report contains a host with an IP address and a MAC
address (both matched by the parser's own patterns) and no open port, yet the
text parser emits nothing — refuting the claim that a host with a MAC but no
open ports is retained in the text form. -/
theorem text_mac_only_host_dropped :
    parse_nmap_text macOnlyReport = [] ∧
    matchHostReport ("Nmap scan report for 10.0.0.9".data) =
      some ([], "10.0.0.9".data) ∧
    matchMacLine ("MAC Address: 11:22:33:44:55:66 (RouterCo)".data) =
      some ("11:22:33:44:55:66".data, "RouterCo".data) := by
  decide

/-- C7 amended: the XML parser emits a host iff its element has status "up",
an IPv4 address, and at least one open port or a MAC address (and every
emitted host satisfies that condition); the TEXT parser emits a host only if
it has an ip and at least one open port — a MAC address alone does not retain
a host in text form. -/
theorem nmap_parser_emission :
    (∀ (xhosts : List XHost) (h : Host), h ∈ parse_nmap_xml xhosts →
        h.ip ≠ [] ∧ (h.ports ≠ [] ∨ h.mac ≠ [])) ∧
    (∀ xh : XHost, (parse_host_elem xh).isSome = true ↔
        (xh.status = some ("up".data) ∧ xipOf xh ≠ [] ∧
          (xopenPorts xh ≠ [] ∨ (xmacOf xh).1 ≠ []))) ∧
    (∀ (output : List Char) (h : Host), h ∈ parse_nmap_text output →
        h.ip ≠ [] ∧ h.ports ≠ []) := by
  refine ⟨?_, parse_host_elem_isSome_iff, parse_nmap_text_only_open⟩
  intro xhosts h hm
  rcases mem_parse_nmap_xml_aux xhosts [] h hm with hx | ⟨xh, _, hp⟩
  · cases hx
  · exact parse_host_elem_some xh h hp

/-- The host parsed from the sample SMB report. -/
def sampleParsed : Host :=
  (parse_nmap_text sampleReportSmb).headD ⟨[], [], [], [], [], [], [], []⟩

/-- Witness for the amended C7 on a concrete report: the emitted host has an
ip and open ports. -/
theorem nmap_parser_emission_witness :
    sampleParsed.ip ≠ [] ∧ sampleParsed.ports ≠ [] :=
  nmap_parser_emission.2.2 sampleReportSmb sampleParsed (by decide)
